import Mathlib

/-!
Shallow embedding of `src/main.ts` of creatorsgarten/inventory-backend
(the later revision, the one with the `Filters` predicate engine).

The program fetches two Grist tables ("Items", "Tags"), maps the raw rows
into a public domain model, joins them through the numeric `Tag` column,
filters by comma-separated `id` / `tag` query values and serves the result
as JSON.  Every definition below is translated from the TypeScript source;
JavaScript-specific semantics (string truthiness, `String.prototype.split`,
`Map` built from an entry list, `Date.prototype.toJSON`) are embedded
explicitly and documented at the definition that carries them.
-/

namespace Inventory

/-- Raw row of the Grist "Items" table (`interface GristItem`, src/main.ts). -/
structure GristItem where
  id : Int
  manualSort : Int
  ID2 : String
  Name : String
  Description : String
  Tag : Int
  CreatedAt : Int
  UpdatedAt : Int
deriving DecidableEq, Repr

/-- Raw row of the Grist "Tags" table (`interface GristTag`, src/main.ts). -/
structure GristTag where
  id : Int
  manualSort : Int
  ID2 : String
  CreatedAt : Int
  UpdatedAt : Int
deriving DecidableEq, Repr

/-- `enum TagType` of src/main.ts (serialized as "ITEM" / "CONTAINER"). -/
inductive TagType where
  | Item
  | Container
deriving DecidableEq, Repr

/-- `enum PossessionType` of src/main.ts. -/
inductive PossessionType where
  | Unspecified
  | User
  | Container
deriving DecidableEq, Repr

/-- The `possession` sub-object of the public `Item` shape. -/
structure Possession where
  type : PossessionType
  id : String
deriving DecidableEq, Repr

/-- The `link` sub-object of the public `Tag` shape. -/
structure TagLink where
  id : String
  type : TagType
deriving DecidableEq, Repr

/-- Public `interface Item` of src/main.ts.  `tags` is optional in the
TypeScript type but the mapper always supplies a list, so it is total here;
`imageUrl` is `string | undefined`, embedded as `Option String`. -/
structure Item where
  id : String
  name : String
  description : String
  notes : String
  imageUrl : Option String
  type : TagType
  tags : List String
  possession : Possession
  createdAt : String
  updatedAt : String
deriving DecidableEq, Repr

/-- Public `interface Tag` of src/main.ts; `link` is `{id, type} | null`. -/
structure Tag where
  id : String
  link : Option TagLink
  createdAt : String
  updatedAt : String
deriving DecidableEq, Repr

/-!
## JavaScript primitives used by the handlers
-/

/-- JavaScript truthiness of a `string | undefined` value: `undefined`
and the empty string are falsy, every other string is truthy.  This is
the semantics of `if (query.id)` and of `itemId ? … : null` in
src/main.ts. -/
def strTruthy : Option String → Bool
  | none => false
  | some s => !(s == "")

/-- Worker for `splitComma`: walks the character list, cutting at every
comma; the accumulator holds the current token reversed. -/
def splitCommaAux : List Char → List Char → List String
  | [], acc => [String.mk acc.reverse]
  | c :: rest, acc =>
      if c = ',' then String.mk acc.reverse :: splitCommaAux rest []
      else splitCommaAux rest (c :: acc)

/-- JavaScript `s.split(",")` for a one-character separator: every
occurrence of the comma cuts, empty tokens are kept, and the empty string
splits to `[""]`. -/
def splitComma (s : String) : List String :=
  splitCommaAux s.data []

/-- JavaScript `Map` built from an entry list, then `.get k`: a later
entry with the same key overwrites an earlier one, and a missing key
yields `undefined` (here `none`).  Used for `tagMap` and `itemByTag` in
src/main.ts. -/
def mapGet (entries : List (Int × α)) (k : Int) : Option α :=
  (entries.reverse.find? (fun p => p.1 == k)).map Prod.snd

/-!
## Filter engine (`class Filters`, src/main.ts lines 257-274)
-/

/-- Argument shape of the getter passed to `Filters.in`:
`string | string[]`. -/
inductive StrOrList where
  | str (s : String)
  | list (l : List String)

/-- `Filters.in(values, getter)` of src/main.ts (`in` is a Lean keyword,
hence `inMember`): builds the accepted set from `values`, normalizes the
getter result to an array, and passes an item when **some** element of
that array is in the set.  JavaScript `Set` membership over strings is
plain string equality, embedded as list membership. -/
def Filters.inMember {T : Type} (values : List String) (getter : T → StrOrList) : T → Bool :=
  fun item =>
    let result := getter item
    let vs := match result with
      | .str s => [s]
      | .list l => l
    vs.any (fun v => values.contains v)

/-- `Filters.match`: an item passes when **every** registered criterion
holds (`this.criteria.every(...)`). -/
def Filters.matchAll {T : Type} (criteria : List (T → Bool)) (item : T) : Bool :=
  criteria.all (fun c => c item)

/-!
## Timestamp conversion (`toISOTimestamp`, src/main.ts lines 253-255)

`toISOTimestamp(ts) = new Date(ts * 1000).toJSON()`.  `Date.prototype
.toJSON` (ECMAScript) renders the instant at `ms` milliseconds since the
Unix epoch as `YYYY-MM-DDTHH:MM:SS.mmmZ` in proleptic-Gregorian UTC.  The
civil date is computed with the standard days-to-civil algorithm; to run
it on `Nat` the millisecond value is shifted by 719468 days (the distance
from 0000-03-01 to 1970-01-01), which is faithful for every instant at or
after year 0 — far below the 32-bit epoch range the spec cares about.
-/

/-- Civil date (year, month, day) of day number `z`, where day 0 is
0000-03-01 of the proleptic Gregorian calendar (so the Unix epoch
1970-01-01 is day 719468). -/
def civilFromDays (z : Nat) : Nat × Nat × Nat :=
  let era := z / 146097
  let doe := z % 146097
  let yoe := (doe - doe / 1460 + doe / 36524 - doe / 146096) / 365
  let y := yoe + era * 400
  let doy := doe - (365 * yoe + yoe / 4 - yoe / 100)
  let mp := (5 * doy + 2) / 153
  let d := doy - (153 * mp + 2) / 5 + 1
  let m := if mp < 10 then mp + 3 else mp - 9
  (if m ≤ 2 then y + 1 else y, m, d)

/-- Inverse of `civilFromDays`: day number of the civil date `(y, m, d)`
in the same day numbering (day 0 = 0000-03-01). -/
def daysFromCivil (y m d : Nat) : Nat :=
  let y' := if m ≤ 2 then y - 1 else y
  let era := y' / 400
  let yoe := y' % 400
  let mp := if 3 ≤ m then m - 3 else m + 9
  let doy := (153 * mp + 2) / 5 + (d - 1)
  let doe := yoe * 365 + yoe / 4 - yoe / 100 + doy
  era * 146097 + doe

/-- The components `Date.prototype.toJSON` renders. -/
structure ISOParts where
  year : Nat
  month : Nat
  day : Nat
  hour : Nat
  minute : Nat
  second : Nat
  millis : Nat
deriving DecidableEq, Repr

/-- Milliseconds in a day. -/
def msPerDay : Nat := 86400000

/-- Shift (in ms) between day 0 = 0000-03-01 and the Unix epoch. -/
def epochShiftMs : Nat := 719468 * msPerDay

/-- Date components of the instant `u` milliseconds after 0000-03-01. -/
def isoPartsOfShifted (u : Nat) : ISOParts :=
  let ymd := civilFromDays (u / msPerDay)
  let r := u % msPerDay
  { year := ymd.1, month := ymd.2.1, day := ymd.2.2
    hour := r / 3600000
    minute := r / 60000 % 60
    second := r / 1000 % 60
    millis := r % 1000 }

/-- Date components of the instant `ms` milliseconds after the Unix
epoch (the decomposition `Date.prototype.toISOString` performs). -/
def isoPartsOfMillis (ms : Int) : ISOParts :=
  isoPartsOfShifted (ms + (epochShiftMs : Int)).toNat

/-- The instant (ms after the Unix epoch) a component record denotes:
recombination through `daysFromCivil`.  This is the semantic value of the
rendered string. -/
def partsValue (p : ISOParts) : Int :=
  (daysFromCivil p.year p.month p.day * msPerDay
    + p.hour * 3600000 + p.minute * 60000 + p.second * 1000 + p.millis : Int)
    - (epochShiftMs : Int)

/-- Decimal digit character. -/
def digitChar (n : Nat) : Char :=
  Char.ofNat (48 + n % 10)

/-- Two-digit zero-padded decimal rendering (fields < 100). -/
def pad2 (n : Nat) : String :=
  String.mk [digitChar (n / 10), digitChar n]

/-- Three-digit zero-padded decimal rendering (fields < 1000). -/
def pad3 (n : Nat) : String :=
  String.mk [digitChar (n / 100), digitChar (n / 10), digitChar n]

/-- Four-digit zero-padded decimal rendering (years 1000-9999, the
simple-format range of `toISOString`). -/
def pad4 (n : Nat) : String :=
  String.mk [digitChar (n / 1000), digitChar (n / 100), digitChar (n / 10), digitChar n]

/-- `YYYY-MM-DDTHH:MM:SS.mmmZ`. -/
def renderISOParts (p : ISOParts) : String :=
  pad4 p.year ++ "-" ++ pad2 p.month ++ "-" ++ pad2 p.day ++ "T"
    ++ pad2 p.hour ++ ":" ++ pad2 p.minute ++ ":" ++ pad2 p.second
    ++ "." ++ pad3 p.millis ++ "Z"

/-- `new Date(ms).toJSON()`. -/
def dateToJSON (ms : Int) : String :=
  renderISOParts (isoPartsOfMillis ms)

/-- `toISOTimestamp` of src/main.ts: epoch **seconds** in, ISO string
out, via `new Date(timestamp * 1000).toJSON()`. -/
def toISOTimestamp (timestamp : Int) : String :=
  dateToJSON (timestamp * 1000)

/-!
## Row mapping and the two GET handlers (src/main.ts lines 286-383)
-/

/-- The body of `items.map((item): Item => …)` in the GET /items handler:
`tagMap` lookup of `item.Tag`, then the public shape with fixed defaults.
The found tag row is an object, always truthy, so `tag ? [tag.ID2] : []`
is `[tag.ID2]` exactly when the lookup succeeds. -/
def mapRowToItem (gtags : List GristTag) (item : GristItem) : Item :=
  let tag := mapGet (gtags.map (fun t => (t.id, t))) item.Tag
  { id := item.ID2
    name := item.Name
    description := item.Description
    notes := ""
    imageUrl := none
    type := TagType.Item
    tags := match tag with
      | some t => [t.ID2]
      | none => []
    possession := { type := PossessionType.Unspecified, id := "" }
    createdAt := toISOTimestamp item.CreatedAt
    updatedAt := toISOTimestamp item.UpdatedAt }

/-- The body of `tags.map((tag): Tag => …)` in the GET /tags handler:
`itemByTag` lookup of `tag.id`, then `itemId ? {id, type} : null`.  The
looked-up value is a **string**, so JavaScript truthiness makes both
`undefined` and the empty string produce `null`. -/
def mapRowToTag (items : List GristItem) (tag : GristTag) : Tag :=
  let itemId := mapGet (items.map (fun i => (i.Tag, i.ID2))) tag.id
  { id := tag.ID2
    link := match itemId with
      | some s => if s == "" then none else some { id := s, type := TagType.Item }
      | none => none
    createdAt := toISOTimestamp tag.CreatedAt
    updatedAt := toISOTimestamp tag.UpdatedAt }

/-- The criteria list the GET /items handler registers: `if (query.id)`
adds the id membership criterion, `if (query.tag)` adds the tag
membership criterion (`item.tags || []` is just `item.tags` here since
the mapper always supplies the list). -/
def itemsCriteria (qid qtag : Option String) : List (Item → Bool) :=
  (if strTruthy qid then
      [Filters.inMember (splitComma (qid.getD "")) (fun item => .str item.id)]
    else []) ++
  (if strTruthy qtag then
      [Filters.inMember (splitComma (qtag.getD "")) (fun item => .list item.tags)]
    else [])

/-- The criteria list the GET /tags handler registers. -/
def tagsCriteria (qid : Option String) : List (Tag → Bool) :=
  if strTruthy qid then
    [Filters.inMember (splitComma (qid.getD "")) (fun tag => .str tag.id)]
  else []

/-- GET /items with fetched tables `items`, `gtags` and query parameters
`qid` (`id`) and `qtag` (`tag`): map every row, then keep those matching
every criterion. -/
def getItems (qid qtag : Option String) (items : List GristItem)
    (gtags : List GristTag) : List Item :=
  (items.map (mapRowToItem gtags)).filter
    (fun item => Filters.matchAll (itemsCriteria qid qtag) item)

/-- GET /tags with fetched tables `items`, `gtags` and query parameter
`qid` (`id`). -/
def getTags (qid : Option String) (items : List GristItem)
    (gtags : List GristTag) : List Tag :=
  (gtags.map (mapRowToTag items)).filter
    (fun tag => Filters.matchAll (tagsCriteria qid) tag)

/-!
## Joint fetch (`Promise.all`, src/main.ts lines 289 and 347)

Each handler awaits both table fetches jointly; a rejection of either
promise rejects the pair, so the handler never sees a partial result.
A fetch outcome is embedded as `Except ε rows`.
-/

/-- `Promise.all([fetchItems(), fetchTags()])` followed by the GET /items
handler body: the handler result is produced only when both fetches
succeed, otherwise the first failing fetch's error propagates. -/
def getItemsResult (qid qtag : Option String)
    (itemsRes : Except ε (List GristItem)) (tagsRes : Except ε (List GristTag)) :
    Except ε (List Item) := do
  let items ← itemsRes
  let gtags ← tagsRes
  pure (getItems qid qtag items gtags)

/-- `Promise.all` followed by the GET /tags handler body. -/
def getTagsResult (qid : Option String)
    (itemsRes : Except ε (List GristItem)) (tagsRes : Except ε (List GristTag)) :
    Except ε (List Tag) := do
  let items ← itemsRes
  let gtags ← tagsRes
  pure (getTags qid items gtags)

/-!
## Auxiliary functions for the calendar correctness argument

`doeFix` and `yearStartDoe` name two subexpressions of the civil-date
algorithm so the year-extraction step can be analysed on its own:
`doeFix doe` is the quantity divided by 365 to obtain the year of era,
and `yearStartDoe y` is the day of era on which March-based year `y`
starts (with `yearStartDoe 400` closing the last year of the era).
-/

/-- The dividend of the year-of-era extraction in `civilFromDays`. -/
def doeFix (doe : Nat) : Nat := doe - doe / 1460 + doe / 36524 - doe / 146096

/-- First day of era of the March-based year `y` of an era (`y ≤ 400`). -/
def yearStartDoe (y : Nat) : Nat :=
  if y = 400 then 146097 else 365 * y + y / 4 - y / 100

/-- "Year `k` starts no later than day `doe`" — named so it can serve as
the decidable predicate of `Nat.findGreatest`. -/
def yrLE (doe : Nat) : Nat → Prop := fun k => yearStartDoe k ≤ doe

instance (doe k : Nat) : Decidable (yrLE doe k) :=
  inferInstanceAs (Decidable (yearStartDoe k ≤ doe))

/-!
## Dedup cache (spec model)

The request-coalescing behaviour lives in the `async-cache-dedupe`
dependency; src/main.ts only configures it (`createCache({ ttl: 60 })
.define("fetchTable", …)`).  The model below is therefore built from the
specification, not from vendored code.
-/

/-- Modelled from the spec: the per-table entry of the dedup cache —
either no entry, an in-flight fetch that concurrent callers must join,
or a cached value with its expiry time. -/
inductive EntryStatus where
  | vacant
  | inflight
  | cached (expiresAt : Nat)
deriving DecidableEq, Repr

/-- Modelled from the spec: the cache's observable state — the status of
every table entry plus, for verification, a counter of remote fetches
issued per table name. -/
structure CacheState where
  status : String → EntryStatus
  remoteCalls : String → Nat

/-- Modelled from the spec: issue a remote fetch for `name` — the entry
becomes in-flight and the remote-call counter for `name` increases. -/
def launch (c : CacheState) (name : String) : CacheState :=
  { status := fun n => if n = name then EntryStatus.inflight else c.status n
    remoteCalls := fun n => if n = name then c.remoteCalls n + 1 else c.remoteCalls n }

/-- Modelled from the spec: a `fetchTable(name)` call arriving at time
`now`.  A fresh cached value answers without a remote call; an in-flight
fetch is joined (request coalescing) without a remote call; a vacant or
expired entry launches a remote fetch. -/
def requestTable (c : CacheState) (name : String) (now : Nat) : CacheState :=
  match c.status name with
  | EntryStatus.inflight => c
  | EntryStatus.cached expiresAt => if now < expiresAt then c else launch c name
  | EntryStatus.vacant => launch c name

/-- Modelled from the spec: completion of the in-flight fetch for
`name` at time `now` caches the value until `now + ttl`. -/
def completeFetch (c : CacheState) (name : String) (now ttl : Nat) : CacheState :=
  { status := fun n => if n = name then EntryStatus.cached (now + ttl) else c.status n
    remoteCalls := c.remoteCalls }

/-!
# Theorems

## Calendar correctness: `daysFromCivil` inverts `civilFromDays`
-/

theorem doeFix_mono_step (n : Nat) : doeFix n ≤ doeFix (n + 1) := by
  unfold doeFix
  omega

theorem doeFix_mono : Monotone doeFix :=
  monotone_nat_of_le_succ doeFix_mono_step

set_option maxHeartbeats 1000000 in
set_option maxRecDepth 2000 in
theorem yearStart_checks : ∀ y : Nat, y < 400 →
    (doeFix (yearStartDoe y) = 365 * y ∧ doeFix (yearStartDoe (y + 1) - 1) < 365 * (y + 1)
      ∧ yearStartDoe (y + 1) - yearStartDoe y ≤ 366) := by
  decide

theorem exists_year_bracket (doe : Nat) (h : doe < 146097) :
    ∃ y, y ≤ 399 ∧ yearStartDoe y ≤ doe ∧ doe < yearStartDoe (y + 1) := by
  have h0 : yrLE doe 0 := Nat.zero_le doe
  have hspec : yrLE doe (Nat.findGreatest (yrLE doe) 399) :=
    Nat.findGreatest_spec (Nat.zero_le 399) h0
  refine ⟨Nat.findGreatest (yrLE doe) 399, Nat.findGreatest_le 399, hspec, ?_⟩
  by_cases hy : Nat.findGreatest (yrLE doe) 399 = 399
  · rw [hy]
    show doe < yearStartDoe 400
    simpa [yearStartDoe] using h
  · have hlt : Nat.findGreatest (yrLE doe) 399 < 399 :=
      lt_of_le_of_ne (Nat.findGreatest_le 399) hy
    have hng : ¬ yrLE doe (Nat.findGreatest (yrLE doe) 399 + 1) :=
      Nat.findGreatest_is_greatest
        (Nat.lt_succ_self (Nat.findGreatest (yrLE doe) 399)) (by omega)
    exact Nat.lt_of_not_le hng

theorem yoe_extract (doe : Nat) (h : doe < 146097) :
    doeFix doe / 365 ≤ 399 ∧
    365 * (doeFix doe / 365) + (doeFix doe / 365) / 4 - (doeFix doe / 365) / 100 ≤ doe ∧
    doe - (365 * (doeFix doe / 365) + (doeFix doe / 365) / 4 - (doeFix doe / 365) / 100) ≤ 365 := by
  obtain ⟨y, hy, h1, h2⟩ := exists_year_bracket doe h
  have hm1 : doeFix (yearStartDoe y) ≤ doeFix doe := doeFix_mono h1
  have hm2 : doeFix doe ≤ doeFix (yearStartDoe (y + 1) - 1) := doeFix_mono (by omega)
  have hc := yearStart_checks y (by omega)
  have hys : yearStartDoe y = 365 * y + y / 4 - y / 100 := by
    unfold yearStartDoe
    rw [if_neg (by omega)]
  have hdiv : doeFix doe / 365 = y := by omega
  rw [hdiv]
  omega

set_option maxHeartbeats 1000000 in
theorem month_day_reassemble (era yoe doy : Nat) (h1 : yoe ≤ 399) (h2 : doy ≤ 365) :
    daysFromCivil
      (if (if (5 * doy + 2) / 153 < 10 then (5 * doy + 2) / 153 + 3
            else (5 * doy + 2) / 153 - 9) ≤ 2
        then yoe + era * 400 + 1 else yoe + era * 400)
      (if (5 * doy + 2) / 153 < 10 then (5 * doy + 2) / 153 + 3 else (5 * doy + 2) / 153 - 9)
      (doy - (153 * ((5 * doy + 2) / 153) + 2) / 5 + 1)
    = era * 146097 + (365 * yoe + yoe / 4 - yoe / 100) + doy := by
  simp only [daysFromCivil]
  split_ifs <;> omega

set_option maxHeartbeats 1000000 in
theorem civil_roundtrip (z : Nat) :
    daysFromCivil (civilFromDays z).1 (civilFromDays z).2.1 (civilFromDays z).2.2 = z := by
  have hdoe : z % 146097 < 146097 := Nat.mod_lt _ (by norm_num)
  have hx := yoe_extract (z % 146097) hdoe
  unfold doeFix at hx
  have hz : 146097 * (z / 146097) + z % 146097 = z := Nat.div_add_mod z 146097
  simp only [civilFromDays]
  generalize hE : z / 146097 = era at hz ⊢
  generalize hD : z % 146097 = doe at hx hz ⊢
  generalize hY : (doe - doe / 1460 + doe / 36524 - doe / 146096) / 365 = yoe at hx ⊢
  have hA := month_day_reassemble era yoe (doe - (365 * yoe + yoe / 4 - yoe / 100)) hx.1 hx.2.2
  omega

theorem shifted_millis_roundtrip (u : Nat) :
    daysFromCivil (civilFromDays (u / msPerDay)).1 (civilFromDays (u / msPerDay)).2.1
        (civilFromDays (u / msPerDay)).2.2 * msPerDay
      + u % msPerDay / 3600000 * 3600000 + (u % msPerDay / 60000 % 60) * 60000
      + (u % msPerDay / 1000 % 60) * 1000 + u % msPerDay % 1000 = u := by
  have hd := civil_roundtrip (u / msPerDay)
  unfold msPerDay at *
  omega

theorem partsValue_isoParts (ms : Int) (h : 0 ≤ ms + (epochShiftMs : Int)) :
    partsValue (isoPartsOfMillis ms) = ms := by
  have hu : (((ms + (epochShiftMs : Int)).toNat : Nat) : Int) = ms + (epochShiftMs : Int) :=
    Int.toNat_of_nonneg h
  have hs := shifted_millis_roundtrip (ms + (epochShiftMs : Int)).toNat
  simp only [partsValue, isoPartsOfMillis, isoPartsOfShifted]
  omega

/-!
## List and string helper lemmas
-/

theorem splitCommaAux_no_comma (cs : List Char) (acc : List Char) (h : ',' ∉ cs) :
    splitCommaAux cs acc = [String.mk (acc.reverse ++ cs)] := by
  induction cs generalizing acc with
  | nil => simp [splitCommaAux]
  | cons c rest ih =>
    have hc : ¬ (c = ',') := fun hc => h (hc ▸ List.mem_cons_self c rest)
    rw [splitCommaAux, if_neg hc, ih (c :: acc) (fun hm => h (List.mem_cons_of_mem c hm))]
    rw [List.reverse_cons, List.append_assoc]
    rfl

theorem splitComma_no_comma (s : String) (h : ',' ∉ s.data) : splitComma s = [s] := by
  unfold splitComma
  rw [splitCommaAux_no_comma s.data [] h]
  rfl

theorem find?_eq_head?_filter {α : Type} (p : α → Bool) (l : List α) :
    l.find? p = (l.filter p).head? := by
  induction l with
  | nil => rfl
  | cons a t ih =>
    by_cases hp : p a
    · rw [List.find?_cons_of_pos t hp, List.filter_cons_of_pos hp]
      rfl
    · rw [List.find?_cons_of_neg t hp, List.filter_cons_of_neg hp, ih]

theorem mapGet_map {α β : Type} (l : List α) (key : α → Int) (val : α → β) (k : Int) :
    mapGet (l.map fun a => (key a, val a)) k
      = ((l.filter (fun a => key a == k)).getLast?).map val := by
  unfold mapGet
  rw [find?_eq_head?_filter, List.filter_reverse, List.head?_reverse, List.filter_map,
    List.getLast?_map]
  simp only [Option.map_map, Function.comp_def]

/-!
## Filter-engine characterizations
-/

theorem getItems_id_only (qs : String) (hqs : qs ≠ "") (items : List GristItem)
    (gtags : List GristTag) :
    getItems (some qs) none items gtags
      = (items.map (mapRowToItem gtags)).filter
          (fun it => (splitComma qs).contains it.id) := by
  unfold getItems
  apply List.filter_congr
  intro it hmem
  simp [Filters.matchAll, itemsCriteria, strTruthy, hqs, Filters.inMember]

theorem getTags_id_only (qs : String) (hqs : qs ≠ "") (items : List GristItem)
    (gtags : List GristTag) :
    getTags (some qs) items gtags
      = (gtags.map (mapRowToTag items)).filter
          (fun t => (splitComma qs).contains t.id) := by
  unfold getTags
  apply List.filter_congr
  intro t hmem
  simp [Filters.matchAll, tagsCriteria, strTruthy, hqs, Filters.inMember]

theorem getItems_tag_only (qt : String) (hqt : qt ≠ "") (items : List GristItem)
    (gtags : List GristTag) :
    getItems none (some qt) items gtags
      = (items.map (mapRowToItem gtags)).filter
          (fun it => it.tags.any (fun s => (splitComma qt).contains s)) := by
  unfold getItems
  apply List.filter_congr
  intro it hmem
  simp [Filters.matchAll, itemsCriteria, strTruthy, hqt, Filters.inMember]

theorem getItems_id_and_tag (qs qt : String) (hqs : qs ≠ "") (hqt : qt ≠ "")
    (items : List GristItem) (gtags : List GristTag) :
    getItems (some qs) (some qt) items gtags
      = (items.map (mapRowToItem gtags)).filter
          (fun it => (splitComma qs).contains it.id
            && it.tags.any (fun s => (splitComma qt).contains s)) := by
  unfold getItems
  apply List.filter_congr
  intro it hmem
  simp [Filters.matchAll, itemsCriteria, strTruthy, hqs, hqt, Filters.inMember]

theorem filter_key_unique {α β : Type} (l : List α) (f : α → β) (key : β → String)
    (kf : α → String) (hk : ∀ a, key (f a) = kf a) (i : α) (hi : i ∈ l)
    (hu : l.Pairwise (fun a b => kf a ≠ kf b)) :
    (l.map f).filter (fun x => key x == kf i) = [f i] := by
  induction l with
  | nil => cases hi
  | cons a t ih =>
    rcases List.mem_cons.mp hi with rfl | hit
    · rw [List.map_cons, List.filter_cons_of_pos (by simp [hk]),
        List.filter_eq_nil_iff.mpr ?_]
      intro x hx
      rcases List.mem_map.mp hx with ⟨b, hb, rfl⟩
      have hne : kf i ≠ kf b := (List.pairwise_cons.mp hu).1 b hb
      simp [hk]
      exact fun heq => hne heq.symm
    · have hne : kf a ≠ kf i := (List.pairwise_cons.mp hu).1 i hit
      rw [List.map_cons, List.filter_cons_of_neg (by simp [hk, hne]),
        ih hit (List.pairwise_cons.mp hu).2]

/-!
## Claim theorems
-/

/-- Claim C1, counterexample.  As stated the claim fails for a present but
empty `id` query string: JavaScript truthiness makes `if (query.id)` skip
the empty string, so no filter is installed and the item with id "A" is
returned even though "A" is not a member of the set obtained by splitting
"" on commas.  It also fails for an id containing a comma: the query
"a,b" splits into {"a","b"}, which does not contain the id "a,b", so the
unique matching item is not returned. -/
theorem c1_counterexample :
    (getItems (some "") none [⟨1, 0, "A", "", "", 10, 1000, 1000⟩] []).length = 1
    ∧ (splitComma "").contains "A" = false
    ∧ getItems (some "a,b") none [⟨1, 0, "a,b", "", "", 10, 1000, 1000⟩] [] = []
    ∧ (⟨1, 0, "a,b", "", "", 10, 1000, 1000⟩ : GristItem).ID2 = "a,b" := by
  decide

/-- Claim C1 (amended): for every present **nonempty** `id` query string,
GET /items and GET /tags return exactly the mapped entities whose public
id is a member of the comma-split of the query value; and when all item
ids are unique, `GET /items?id=i.ID2` returns exactly the one mapped item
of row `i`, provided `i.ID2` is nonempty and contains no comma. -/
theorem c1_id_filter_amended (qs : String) (hqs : qs ≠ "") (items : List GristItem)
    (gtags : List GristTag) :
    getItems (some qs) none items gtags
      = (items.map (mapRowToItem gtags)).filter (fun it => (splitComma qs).contains it.id)
    ∧ getTags (some qs) items gtags
      = (gtags.map (mapRowToTag items)).filter (fun t => (splitComma qs).contains t.id)
    ∧ (∀ i ∈ items, items.Pairwise (fun a b => a.ID2 ≠ b.ID2) → i.ID2 ≠ "" →
        ',' ∉ i.ID2.data →
        getItems (some i.ID2) none items gtags = [mapRowToItem gtags i]) := by
  refine ⟨getItems_id_only qs hqs items gtags, getTags_id_only qs hqs items gtags, ?_⟩
  intro i hi hu hne hnc
  rw [getItems_id_only i.ID2 hne items gtags, splitComma_no_comma _ hnc]
  have hcongr : (items.map (mapRowToItem gtags)).filter (fun it => [i.ID2].contains it.id)
      = (items.map (mapRowToItem gtags)).filter (fun it => it.id == i.ID2) :=
    List.filter_congr (fun x hx => by simp [Bool.beq_eq_decide_eq])
  rw [hcongr]
  exact filter_key_unique items (mapRowToItem gtags) Item.id GristItem.ID2
    (fun a => rfl) i hi hu

/-- Claim C1 witness: a concrete one-row table where the singleton lookup
returns exactly that row's mapped item. -/
theorem c1_id_filter_amended_witness :
    getItems (some "A") none [⟨1, 0, "A", "", "", 10, 1000, 1000⟩] []
      = [mapRowToItem [] ⟨1, 0, "A", "", "", 10, 1000, 1000⟩] :=
  (c1_id_filter_amended "A" (by decide) [⟨1, 0, "A", "", "", 10, 1000, 1000⟩] []).2.2
    ⟨1, 0, "A", "", "", 10, 1000, 1000⟩ (by simp) (by simp) (by decide) (by decide)

/-- Claim C2, counterexample.  As stated the claim fails for a present but
empty `tag` query string: `if (query.tag)` treats "" as absent, so the
item with tag list ["T1"] is returned even though no member of its list
is in the comma-split of "" (which is {""}). -/
theorem c2_counterexample :
    (getItems none (some "") [⟨1, 0, "A", "", "", 10, 1000, 1000⟩]
        [⟨10, 0, "T1", 900, 900⟩]).length = 1
    ∧ (mapRowToItem [⟨10, 0, "T1", 900, 900⟩] ⟨1, 0, "A", "", "", 10, 1000, 1000⟩).tags
        = ["T1"]
    ∧ ["T1"].any (fun s => (splitComma "").contains s) = false := by
  decide

/-- Claim C2 (amended): for every present **nonempty** `tag` query string,
an item is kept exactly when some member of its `tags` list is in the
comma-split of the query value, and a simultaneously present nonempty
`id` query conjoins the id-membership predicate (logical AND). -/
theorem c2_tag_filter_amended (qt : String) (hqt : qt ≠ "") (items : List GristItem)
    (gtags : List GristTag) :
    getItems none (some qt) items gtags
      = (items.map (mapRowToItem gtags)).filter
          (fun it => it.tags.any (fun s => (splitComma qt).contains s))
    ∧ (∀ qs : String, qs ≠ "" →
        getItems (some qs) (some qt) items gtags
          = (items.map (mapRowToItem gtags)).filter
              (fun it => (splitComma qs).contains it.id
                && it.tags.any (fun s => (splitComma qt).contains s))) :=
  ⟨getItems_tag_only qt hqt items gtags,
    fun qs hqs => getItems_id_and_tag qs qt hqs hqt items gtags⟩

/-- Claim C2 witness: concrete evaluation of the tag filter on a one-item
table. -/
theorem c2_tag_filter_amended_witness :
    getItems none (some "T1") [⟨1, 0, "A", "", "", 10, 1000, 1000⟩]
        [⟨10, 0, "T1", 900, 900⟩]
      = (([⟨1, 0, "A", "", "", 10, 1000, 1000⟩].map
            (mapRowToItem [⟨10, 0, "T1", 900, 900⟩])).filter
          (fun it => it.tags.any (fun s => (splitComma "T1").contains s))) :=
  (c2_tag_filter_amended "T1" (by decide) [⟨1, 0, "A", "", "", 10, 1000, 1000⟩]
    [⟨10, 0, "T1", 900, 900⟩]).1

/-- Claim C5, counterexample.  Empty tokens are **not** dropped: the query
value "," splits into ["", ""], and a tag whose id is the empty string is
matched (response of length 1, its id being "").  Also a present empty
query value installs no filter at all instead of an empty filter set: with
`id=` the lone item still comes back. -/
theorem c5_counterexample :
    (getTags (some ",") [] [⟨10, 0, "", 900, 900⟩]).length = 1
    ∧ (getTags (some ",") [] [⟨10, 0, "", 900, 900⟩]).map Tag.id = [""]
    ∧ (getItems (some "") none [⟨1, 0, "A", "", "", 10, 1000, 1000⟩] []).length = 1 := by
  decide

/-- Claim C5 (amended): a present but empty query value contributes no
predicate (the endpoint behaves as if the parameter were absent); a
nonempty value is split keeping empty tokens, so "," splits to ["", ""]
and filters GET /tags down to exactly the tags whose id is the empty
string (an empty token does match an entity with empty id). -/
theorem c5_empty_tokens_amended (items : List GristItem) (gtags : List GristTag)
    (qtag : Option String) :
    getItems (some "") qtag items gtags = getItems none qtag items gtags
    ∧ getTags (some "") items gtags = getTags none items gtags
    ∧ splitComma "," = ["", ""]
    ∧ getTags (some ",") items gtags
        = (gtags.map (mapRowToTag items)).filter (fun t => t.id == "") := by
  refine ⟨?_, ?_, by decide, ?_⟩
  · unfold getItems
    have h : itemsCriteria (some "") qtag = itemsCriteria none qtag := by
      simp [itemsCriteria, strTruthy]
    rw [h]
  · unfold getTags
    have h : tagsCriteria (some "") = tagsCriteria none := by
      simp [tagsCriteria, strTruthy]
    rw [h]
  · rw [getTags_id_only "," (by decide) items gtags]
    exact List.filter_congr (fun t ht => by simp [splitComma, splitCommaAux, Bool.beq_eq_decide_eq])

/-- Claim C7: with no query parameters no predicate is installed, so
GET /items returns every mapped item and the count equals the number of
fetched item rows. -/
theorem c7_no_query_passthrough (items : List GristItem) (gtags : List GristTag) :
    getItems none none items gtags = items.map (mapRowToItem gtags)
    ∧ (getItems none none items gtags).length = items.length := by
  have h : getItems none none items gtags = items.map (mapRowToItem gtags) := by
    unfold getItems
    exact List.filter_eq_self.mpr (fun a ha => rfl)
  exact ⟨h, by rw [h, List.length_map]⟩

/-- Claim C8: the two table fetches are awaited jointly; if either fetch
fails the whole request fails with that fetch error (no partial response
from the table that succeeded), and only when both succeed is the handler
result produced. -/
theorem c8_fetch_failure_propagates {ε : Type} (qid qtag : Option String) (e : ε)
    (tR : Except ε (List GristTag)) (items : List GristItem) (gtags : List GristTag) :
    getItemsResult qid qtag (Except.error e) tR = Except.error e
    ∧ getItemsResult qid qtag (Except.ok items) (Except.error e) = Except.error e
    ∧ getItemsResult qid qtag (Except.ok items) (Except.ok gtags)
        = (Except.ok (getItems qid qtag items gtags) : Except ε (List Item))
    ∧ getTagsResult qid (Except.error e) tR = Except.error e
    ∧ getTagsResult qid (Except.ok items) (Except.error e) = Except.error e
    ∧ getTagsResult qid (Except.ok items) (Except.ok gtags)
        = (Except.ok (getTags qid items gtags) : Except ε (List Tag)) :=
  ⟨rfl, rfl, rfl, rfl, rfl, rfl⟩

/-- Claim C3, counterexample.  As stated the claim fails when the
referencing item's `ID2` is the empty string: JavaScript truthiness makes
`itemId ? {…} : null` produce `null` for the looked-up empty string, so
the link is null even though an item row references the tag. -/
theorem c3_counterexample :
    (mapRowToTag [⟨1, 0, "", "", "", 10, 1000, 1000⟩] ⟨10, 0, "T1", 900, 900⟩).link = none
    ∧ (⟨1, 0, "", "", "", 10, 1000, 1000⟩ : GristItem).Tag
        = (⟨10, 0, "T1", 900, 900⟩ : GristTag).id := by
  decide

/-- Claim C3 (amended): a tag referenced by no item row gets a null link;
a referenced tag links to the **last** referencing item in row order,
unless that item's `ID2` is the empty string, in which case the link is
null as well; the concrete one-item/one-tag scenario produces the claimed
GET /tags body. -/
theorem c3_link_amended (items : List GristItem) (gtags : List GristTag) (t : GristTag) :
    ((∀ i ∈ items, i.Tag ≠ t.id) → (mapRowToTag items t).link = none)
    ∧ (∀ last, (items.filter (fun i => i.Tag == t.id)).getLast? = some last →
        (mapRowToTag items t).link
          = if last.ID2 = "" then none
            else some { id := last.ID2, type := TagType.Item })
    ∧ getTags none [⟨1, 0, "A", "", "", 10, 1000, 1000⟩] [⟨10, 0, "T1", 900, 900⟩]
        = [{ id := "T1", link := some { id := "A", type := TagType.Item },
             createdAt := "1970-01-01T00:15:00.000Z",
             updatedAt := "1970-01-01T00:15:00.000Z" }] := by
  refine ⟨?_, ?_, by decide⟩
  · intro h
    unfold mapRowToTag
    have hm : mapGet (items.map fun i => (i.Tag, i.ID2)) t.id = none := by
      rw [mapGet_map, List.filter_eq_nil_iff.mpr (fun i hi => by simp [h i hi])]
      rfl
    simp [hm]
  · intro last hlast
    unfold mapRowToTag
    have hm : mapGet (items.map fun i => (i.Tag, i.ID2)) t.id = some last.ID2 := by
      rw [mapGet_map, hlast]
      rfl
    simp only [hm]
    by_cases hid : last.ID2 = "" <;> simp [hid]

/-- Claim C3 witness: the null-link case on an empty items table and the
object-link case on a one-item table, at concrete rows. -/
theorem c3_link_amended_witness :
    (mapRowToTag ([] : List GristItem) ⟨10, 0, "T1", 900, 900⟩).link = none
    ∧ (mapRowToTag [⟨1, 0, "A", "", "", 10, 1000, 1000⟩] ⟨10, 0, "T1", 900, 900⟩).link
        = if ("A" : String) = "" then none
          else some { id := "A", type := TagType.Item } :=
  ⟨(c3_link_amended [] [] ⟨10, 0, "T1", 900, 900⟩).1 (by decide),
   (c3_link_amended [⟨1, 0, "A", "", "", 10, 1000, 1000⟩] [] ⟨10, 0, "T1", 900, 900⟩).2.1
     ⟨1, 0, "A", "", "", 10, 1000, 1000⟩ (by decide)⟩

/-- Claim C4: an item row whose `Tag` value matches no tag row maps to an
item with an empty `tags` list — the mapper is total, no error is
raised. -/
theorem c4_unmatched_tag_empty (gtags : List GristTag) (i : GristItem)
    (h : ∀ t ∈ gtags, t.id ≠ i.Tag) :
    (mapRowToItem gtags i).tags = [] := by
  unfold mapRowToItem
  have hm : mapGet (gtags.map fun t => (t.id, t)) i.Tag = none := by
    rw [mapGet_map, List.filter_eq_nil_iff.mpr (fun t ht => by simp [h t ht])]
    rfl
  simp [hm]

/-- Claim C4 witness: a concrete item row pointing at tag id 10 while the
only tag row has id 99. -/
theorem c4_unmatched_tag_empty_witness :
    (mapRowToItem [⟨99, 0, "T9", 900, 900⟩] ⟨1, 0, "A", "", "", 10, 1000, 1000⟩).tags = [] :=
  c4_unmatched_tag_empty [⟨99, 0, "T9", 900, 900⟩] ⟨1, 0, "A", "", "", 10, 1000, 1000⟩
    (by decide)

/-- Claim C6: `toISOTimestamp` multiplies epoch seconds by 1000 and
renders that instant; over the whole signed 32-bit range the rendered
components recombine (through `daysFromCivil`) to exactly `e * 1000`
milliseconds — no overflow or drift — and epoch 1000 renders as the
claimed string. -/
theorem c6_timestamp_conversion (e : Int) (h1 : -2147483648 ≤ e) (h2 : e < 2147483648) :
    partsValue (isoPartsOfMillis (e * 1000)) = e * 1000
    ∧ toISOTimestamp e = renderISOParts (isoPartsOfMillis (e * 1000))
    ∧ toISOTimestamp 1000 = "1970-01-01T00:16:40.000Z" := by
  refine ⟨?_, rfl, by decide⟩
  apply partsValue_isoParts
  unfold epochShiftMs msPerDay
  push_cast
  omega

/-- Claim C6 witness: the conversion checked at epoch 1000. -/
theorem c6_timestamp_conversion_witness :
    partsValue (isoPartsOfMillis (1000 * 1000)) = 1000 * 1000
    ∧ toISOTimestamp 1000 = renderISOParts (isoPartsOfMillis (1000 * 1000))
    ∧ toISOTimestamp 1000 = "1970-01-01T00:16:40.000Z" :=
  c6_timestamp_conversion 1000 (by decide) (by decide)

/-- Claim C9 (spec-modelled): a `fetchTable` call that finds the entry
vacant launches exactly one remote fetch and marks the entry in-flight; a
second call for the same table while that fetch is in flight leaves the
state unchanged — it joins the single underlying call instead of issuing
a duplicate — and entries of other tables are untouched. -/
theorem c9_request_coalescing (c : CacheState) (name : String) (t0 t1 : Nat)
    (h : c.status name = EntryStatus.vacant) :
    (requestTable c name t0).remoteCalls name = c.remoteCalls name + 1
    ∧ (requestTable c name t0).status name = EntryStatus.inflight
    ∧ requestTable (requestTable c name t0) name t1 = requestTable c name t0
    ∧ (∀ n, n ≠ name → (requestTable c name t0).status n = c.status n
        ∧ (requestTable c name t0).remoteCalls n = c.remoteCalls n) := by
  have h1 : requestTable c name t0 = launch c name := by
    unfold requestTable
    rw [h]
  refine ⟨?_, ?_, ?_, ?_⟩
  · rw [h1]
    simp [launch]
  · rw [h1]
    simp [launch]
  · rw [h1]
    have h2 : (launch c name).status name = EntryStatus.inflight := by simp [launch]
    unfold requestTable
    rw [h2]
  · intro n hn
    rw [h1]
    exact ⟨by simp [launch, hn], by simp [launch, hn]⟩

/-- Claim C9 witness: from an empty cache, two calls for "Items" at times
0 and 30 inside the TTL window perform exactly one remote fetch, and the
"Tags" entry is untouched. -/
theorem c9_request_coalescing_witness :
    (requestTable (⟨fun _ => EntryStatus.vacant, fun _ => 0⟩ : CacheState)
        "Items" 0).remoteCalls "Items" = 0 + 1
    ∧ requestTable (requestTable ⟨fun _ => EntryStatus.vacant, fun _ => 0⟩ "Items" 0)
          "Items" 30
        = requestTable ⟨fun _ => EntryStatus.vacant, fun _ => 0⟩ "Items" 0
    ∧ (requestTable (⟨fun _ => EntryStatus.vacant, fun _ => 0⟩ : CacheState)
        "Items" 0).remoteCalls "Tags" = 0 :=
  ⟨(c9_request_coalescing ⟨fun _ => EntryStatus.vacant, fun _ => 0⟩ "Items" 0 30 rfl).1,
   (c9_request_coalescing ⟨fun _ => EntryStatus.vacant, fun _ => 0⟩ "Items" 0 30 rfl).2.2.1,
   ((c9_request_coalescing ⟨fun _ => EntryStatus.vacant, fun _ => 0⟩ "Items" 0 30 rfl).2.2.2
     "Tags" (by decide)).2⟩

/-- Claim C10, counterexample.  As stated the claim fails when the last
referencing item's `ID2` is the empty string: the map retains that item,
but string truthiness then turns the link into `null` rather than a link
whose id is that `ID2`. -/
theorem c10_counterexample :
    (mapRowToTag [⟨1, 0, "A", "", "", 10, 1000, 1000⟩, ⟨2, 0, "", "", "", 10, 1000, 1000⟩]
        ⟨10, 0, "T1", 900, 900⟩).link = none
    ∧ (([⟨1, 0, "A", "", "", 10, 1000, 1000⟩, ⟨2, 0, "", "", "", 10, 1000, 1000⟩].filter
          (fun i => i.Tag == (⟨10, 0, "T1", 900, 900⟩ : GristTag).id)).getLast?).map
        GristItem.ID2 = some "" := by
  decide

/-- Claim C10 (amended): when several item rows share the same `Tag`
value, the map built from the entry list retains the **last** such row,
so the tag links to that row's `ID2` (earlier referencing rows are
silently ignored, no error or multi-link) — unless that last `ID2` is the
empty string, in which case the link is null. -/
theorem c10_last_wins_amended (pre post : List GristItem) (i : GristItem) (t : GristTag)
    (hpost : ∀ j ∈ post, j.Tag ≠ t.id) (hi : i.Tag = t.id) :
    (mapRowToTag (pre ++ i :: post) t).link
      = if i.ID2 = "" then none else some { id := i.ID2, type := TagType.Item } := by
  unfold mapRowToTag
  have hm : mapGet ((pre ++ i :: post).map fun j => (j.Tag, j.ID2)) t.id = some i.ID2 := by
    rw [mapGet_map, List.filter_append]
    have hcons : (i :: post).filter (fun j => j.Tag == t.id) = [i] := by
      rw [List.filter_cons_of_pos (by simp [hi]),
        List.filter_eq_nil_iff.mpr (fun j hj => by simp [hpost j hj])]
    rw [hcons, List.getLast?_concat]
    rfl
  simp only [hm]
  by_cases hid : i.ID2 = "" <;> simp [hid]

/-- Claim C10 witness: two rows referencing tag 10; the produced link
carries the second row's id "B". -/
theorem c10_last_wins_amended_witness :
    (mapRowToTag ([⟨1, 0, "A", "", "", 10, 1000, 1000⟩] ++
        ⟨2, 0, "B", "", "", 10, 1000, 1000⟩ :: []) ⟨10, 0, "T1", 900, 900⟩).link
      = if ("B" : String) = "" then none else some { id := "B", type := TagType.Item } :=
  c10_last_wins_amended [⟨1, 0, "A", "", "", 10, 1000, 1000⟩] []
    ⟨2, 0, "B", "", "", 10, 1000, 1000⟩ ⟨10, 0, "T1", 900, 900⟩ (by decide) (by decide)

end Inventory
